import Mathlib

/-
  Verification of the sapling structural editor core (src/src/editor.rs).

  The embedding models the command interpreter and the editor main loop.
  Strings are embedded as lists of characters, mirroring the character
  iterator used by the Rust code.
-/

namespace Sapling

/-- The possible outcomes of a user-typed command (enum Action in editor.rs). -/
inductive Action where
  | Undefined : Action
  | Quit : Action
  | Replace : Char → Action
deriving DecidableEq, Repr

/-- Embedding of fn interpret_command in editor.rs: parse the command buffer
from the start, returning none when the command is incomplete. -/
def interpret_command (command : List Char) : Option Action :=
  match command with
  | [] => none
  | c :: rest =>
    if c = 'q' then
      some Action.Quit
    else if c = 'r' then
      match rest with
      | [] => none
      | replace_char :: _ => some (Action.Replace replace_char)
    else
      some Action.Undefined

/-- C1: For every character X, interpreting the buffer consisting of the
character r followed by X and then any suffix s resolves to some (Replace X);
trailing characters after the complete command are ignored. -/
theorem C1_interpret_replace (x : Char) (s : List Char) :
    interpret_command ('r' :: x :: s) = some (Action.Replace x) := rfl

/-- C2: For every suffix s, interpreting a buffer starting with the character q
resolves to some Quit; trailing characters after the q are ignored. -/
theorem C2_interpret_quit (s : List Char) :
    interpret_command ('q' :: s) = some Action.Quit := rfl

/-- C3: For every non-empty buffer whose first character is neither q nor r,
interpretation resolves to some Undefined (the rejected action), regardless of
the remaining characters. -/
theorem C3_interpret_undefined (c : Char) (s : List Char)
    (hq : c ≠ 'q') (hr : c ≠ 'r') :
    interpret_command (c :: s) = some Action.Undefined := by
  simp only [interpret_command]
  rw [if_neg hq, if_neg hr]

/-- Witness for C3 at the concrete buffer consisting of the single character x. -/
theorem C3_interpret_undefined_witness :
    interpret_command ['x'] = some Action.Undefined :=
  C3_interpret_undefined 'x' [] (by decide) (by decide)

/-- C4: Interpreting the empty buffer returns none (incomplete), and
interpreting the single-character buffer r returns none (incomplete). -/
theorem C4_interpret_incomplete :
    interpret_command [] = none ∧ interpret_command ['r'] = none :=
  ⟨rfl, rfl⟩

/-- C5: The interpreter is deterministic and total: it is a pure function of
the buffer, so equal buffers always yield equal results, and every buffer has
a defined result. -/
theorem C5_interpret_deterministic_total :
    (∀ s t : List Char, s = t → interpret_command s = interpret_command t) ∧
    (∀ s : List Char, ∃ r : Option Action, interpret_command s = r) :=
  ⟨fun _ _ h => congrArg interpret_command h, fun s => ⟨interpret_command s, rfl⟩⟩

/-- Witness for C5 at a concrete buffer. -/
theorem C5_interpret_deterministic_total_witness :
    interpret_command ['q'] = interpret_command ['q'] ∧
    ∃ r : Option Action, interpret_command ['q'] = r :=
  ⟨C5_interpret_deterministic_total.1 ['q'] ['q'] rfl,
   C5_interpret_deterministic_total.2 ['q']⟩

/-- Keys of the terminal backend that the main loop distinguishes: a printable
character, the escape key, or any other key. -/
inductive Key where
  | Char : Char → Key
  | ESC : Key
  | Other : Key
deriving DecidableEq, Repr

/-- Events polled from the terminal backend: a key event or any other event. -/
inductive Event where
  | Key : Key → Event
  | Other : Event
deriving DecidableEq, Repr

/-- Whether the main loop keeps running after an event or has exited it. -/
inductive LoopStatus where
  | Running : LoopStatus
  | Terminated : LoopStatus
deriving DecidableEq, Repr

/-- The editor state relevant to the main loop: the editable tree (abstract,
of type E) and the accumulated command buffer (struct Editor in editor.rs,
minus the terminal handle and format style). -/
structure Editor (E : Type) where
  tree : E
  command : List Char
deriving DecidableEq, Repr

/-- Embedding of the match on a resolved action inside Editor::mainloop:
Undefined and Replace are no-op arms, Quit breaks out of the loop. -/
def respond {E : Type} (ed : Editor E) (action : Action) : Editor E × LoopStatus :=
  match action with
  | Action.Undefined => (ed, LoopStatus.Running)
  | Action.Quit => (ed, LoopStatus.Terminated)
  | Action.Replace _ => (ed, LoopStatus.Running)

/-- Embedding of one iteration of Editor::mainloop on a successfully polled
event, before the display update: a character key is pushed onto the command
buffer, the buffer is interpreted, and on any resolved action the buffer is
cleared before responding; ESC clears the buffer; other keys and non-key
events do nothing. -/
def mainloopStep {E : Type} (ed : Editor E) (event : Event) : Editor E × LoopStatus :=
  match event with
  | Event.Key (Key.Char c) =>
    let command := ed.command ++ [c]
    match interpret_command command with
    | some action => respond { ed with command := [] } action
    | none => ({ ed with command := command }, LoopStatus.Running)
  | Event.Key Key.ESC => ({ ed with command := [] }, LoopStatus.Running)
  | Event.Key Key.Other => (ed, LoopStatus.Running)
  | Event.Other => (ed, LoopStatus.Running)

/-- Operations the editor issues to the terminal backend. -/
inductive TermOp where
  | clear : TermOp
  | print : Int → Int → String → TermOp
  | present : TermOp
deriving DecidableEq, Repr

/-- Embedding of Editor::update_display as the sequence of terminal operations
it issues: clear the screen, print the rendered tree at the origin, print the
fixed hint on the bottom row, print the command buffer right-aligned on the
bottom row, and present. The rendering function toText stands for the
tree.to_text call, whose implementation lives outside editor.rs. -/
def update_display {E : Type} (toText : E → String) (width height : Nat)
    (ed : Editor E) : List TermOp :=
  [ TermOp.clear,
    TermOp.print 0 0 (toText ed.tree),
    TermOp.print ((height : Int) - 1) 0 "Press \x27q\x27 to exit.",
    TermOp.print ((height : Int) - 1)
      ((width : Int) - 5 - (ed.command.length : Int)) (String.mk ed.command),
    TermOp.present ]

/-- Embedding of a full iteration of the Editor::mainloop body on a polled
event: respond to the input, then update the display, except that a Quit
resolution breaks out of the loop before reaching the update_display call. -/
def mainloopIter {E : Type} (toText : E → String) (width height : Nat)
    (ed : Editor E) (event : Event) : Editor E × LoopStatus × List TermOp :=
  match mainloopStep ed event with
  | (ed2, LoopStatus.Running) =>
    (ed2, LoopStatus.Running, update_display toText width height ed2)
  | (ed2, LoopStatus.Terminated) => (ed2, LoopStatus.Terminated, [])

/-- Modelled from the spec: the Editable Tree replace operation and the
mapping from a replace character to a node construction are not part of
src/src/editor.rs; section 4.5 of the spec says that on Replace(c) the loop
dispatches to the Editable Tree (mapping c to a concrete node construction
appropriate to the grammar) and then clears the buffer. The dispatch is
abstracted as a function replaceSel from tree and character to tree. -/
def respondSpec {E : Type} (replaceSel : E → Char → E) (ed : Editor E)
    (action : Action) : Editor E × LoopStatus :=
  match action with
  | Action.Undefined => (ed, LoopStatus.Running)
  | Action.Quit => (ed, LoopStatus.Terminated)
  | Action.Replace c => ({ ed with tree := replaceSel ed.tree c }, LoopStatus.Running)

/-- Modelled from the spec: one main loop iteration as section 4.5 describes
it, identical to mainloopStep except that a Replace resolution dispatches the
replacement to the tree via replaceSel. -/
def mainloopStepSpec {E : Type} (replaceSel : E → Char → E) (ed : Editor E)
    (event : Event) : Editor E × LoopStatus :=
  match event with
  | Event.Key (Key.Char c) =>
    let command := ed.command ++ [c]
    match interpret_command command with
    | some action => respondSpec replaceSel { ed with command := [] } action
    | none => ({ ed with command := command }, LoopStatus.Running)
  | Event.Key Key.ESC => ({ ed with command := [] }, LoopStatus.Running)
  | Event.Key Key.Other => (ed, LoopStatus.Running)
  | Event.Other => (ed, LoopStatus.Running)

/-- Helper: responding to an action never changes the editor state itself. -/
theorem respond_fst {E : Type} (ed : Editor E) (a : Action) :
    (respond ed a).1 = ed := by
  cases a <;> rfl

/-- Helper: the interpreter only looks at the first two characters. -/
theorem interpret_command_take_two :
    ∀ s : List Char, interpret_command s = interpret_command (s.take 2)
  | [] => rfl
  | [_] => rfl
  | _ :: _ :: _ => rfl

/-- Helper: a buffer of two or more characters never interprets to none. -/
theorem interpret_command_cons_cons (c d : Char) (r : List Char) :
    interpret_command (c :: d :: r) ≠ none := by
  simp only [interpret_command]
  by_cases hq : c = 'q'
  · simp [hq]
  · by_cases hr : c = 'r'
    · simp [hq, hr]
    · simp [hq, hr]

/-- C6 counterexample: for the buffer r followed by the key a, which resolves
to Replace a, the main loop embedded from the source leaves the tree exactly
as it was, while the loop described by the spec dispatches the replacement to
the tree; with a tree state of type Nat and a dispatch that increments it, the
two disagree. -/
theorem C6_counterexample :
    interpret_command (('r' : Char) :: ['a']) = some (Action.Replace 'a') ∧
    (mainloopStep (Editor.mk (0 : Nat) ['r']) (Event.Key (Key.Char 'a'))).1.tree ≠
      (mainloopStepSpec (fun t _ => t + 1) (Editor.mk (0 : Nat) ['r'])
        (Event.Key (Key.Char 'a'))).1.tree := by
  decide

/-- C6 amended: when a key event resolves to Replace, the main loop clears
the command buffer and keeps running, but it does not dispatch anything to
the editable tree: the Replace arm is a no-op placeholder, so the tree is
unchanged. -/
theorem C6_amended_replace_is_noop {E : Type} (ed : Editor E) (c x : Char)
    (h : interpret_command (ed.command ++ [c]) = some (Action.Replace x)) :
    (mainloopStep ed (Event.Key (Key.Char c))).1.tree = ed.tree ∧
    (mainloopStep ed (Event.Key (Key.Char c))).1.command = [] ∧
    (mainloopStep ed (Event.Key (Key.Char c))).2 = LoopStatus.Running := by
  simp only [mainloopStep, h]
  exact ⟨rfl, rfl, rfl⟩

/-- Witness for the amended C6 at the buffer r with incoming key a. -/
theorem C6_amended_replace_is_noop_witness :
    (mainloopStep (Editor.mk (0 : Nat) ['r']) (Event.Key (Key.Char 'a'))).1.tree = 0 ∧
    (mainloopStep (Editor.mk (0 : Nat) ['r']) (Event.Key (Key.Char 'a'))).1.command = [] ∧
    (mainloopStep (Editor.mk (0 : Nat) ['r']) (Event.Key (Key.Char 'a'))).2 =
      LoopStatus.Running :=
  C6_amended_replace_is_noop (Editor.mk (0 : Nat) ['r']) 'a' 'a' (by decide)

/-- C7: the command buffer is cleared on every resolution: after a character
key on which the interpreter returns some action the buffer is empty, after
the escape key the buffer is empty, and when the interpreter returns none the
appended character remains buffered. -/
theorem C7_buffer_cleared_on_resolution {E : Type} (ed : Editor E) (c : Char) :
    ((∃ a, interpret_command (ed.command ++ [c]) = some a) →
      (mainloopStep ed (Event.Key (Key.Char c))).1.command = []) ∧
    (interpret_command (ed.command ++ [c]) = none →
      (mainloopStep ed (Event.Key (Key.Char c))).1.command = ed.command ++ [c]) ∧
    (mainloopStep ed (Event.Key Key.ESC)).1.command = [] := by
  refine ⟨?_, ?_, rfl⟩
  · rintro ⟨a, ha⟩
    simp only [mainloopStep, ha]
    cases a <;> rfl
  · intro h
    simp only [mainloopStep, h]

/-- Witness for C7 at concrete buffers: a resolving key, an incomplete key,
and the escape key. -/
theorem C7_buffer_cleared_on_resolution_witness :
    (mainloopStep (Editor.mk () ['x']) (Event.Key (Key.Char 'q'))).1.command = [] ∧
    (mainloopStep (Editor.mk () []) (Event.Key (Key.Char 'r'))).1.command = ['r'] ∧
    (mainloopStep (Editor.mk () ['r']) (Event.Key Key.ESC)).1.command = [] :=
  ⟨(C7_buffer_cleared_on_resolution (Editor.mk () ['x']) 'q').1 ⟨Action.Undefined, rfl⟩,
   (C7_buffer_cleared_on_resolution (Editor.mk () []) 'r').2.1 rfl,
   (C7_buffer_cleared_on_resolution (Editor.mk () ['r']) 'r').2.2⟩

/-- C8: the loop never exits on an event except on an explicit Quit
resolution: whenever the event is not a character key resolving to Quit, the
loop remains running, and a character key resolving to Quit terminates it. -/
theorem C8_terminates_only_on_quit {E : Type} (ed : Editor E) (event : Event) :
    ((∀ c, event = Event.Key (Key.Char c) →
        interpret_command (ed.command ++ [c]) ≠ some Action.Quit) →
      (mainloopStep ed event).2 = LoopStatus.Running) ∧
    (∀ c, event = Event.Key (Key.Char c) →
      interpret_command (ed.command ++ [c]) = some Action.Quit →
      (mainloopStep ed event).2 = LoopStatus.Terminated) := by
  constructor
  · intro h
    match event with
    | Event.Other => rfl
    | Event.Key Key.ESC => rfl
    | Event.Key Key.Other => rfl
    | Event.Key (Key.Char c) =>
      have hc := h c rfl
      simp only [mainloopStep]
      cases ha : interpret_command (ed.command ++ [c]) with
      | none => rfl
      | some a =>
        cases a with
        | Undefined => rfl
        | Quit => exact absurd ha hc
        | Replace x => rfl
  · rintro c rfl hq
    simp only [mainloopStep, hq]
    rfl

/-- Witness for C8: a non-key event keeps the loop running, and the key q on
an empty buffer terminates it. -/
theorem C8_terminates_only_on_quit_witness :
    (mainloopStep (Editor.mk () []) Event.Other).2 = LoopStatus.Running ∧
    (mainloopStep (Editor.mk () []) (Event.Key (Key.Char 'q'))).2 =
      LoopStatus.Terminated :=
  ⟨(C8_terminates_only_on_quit (Editor.mk () []) Event.Other).1 (fun _ h => nomatch h),
   (C8_terminates_only_on_quit (Editor.mk () []) (Event.Key (Key.Char 'q'))).2 'q' rfl rfl⟩

/-- C9 counterexample: on the key q, which resolves to Quit, the loop breaks
before the update_display call, so no terminal operation is issued at all,
although a re-render would have issued a non-empty sequence. -/
theorem C9_counterexample :
    (mainloopStep (Editor.mk (0 : Nat) []) (Event.Key (Key.Char 'q'))).2 =
      LoopStatus.Terminated ∧
    (mainloopIter (fun (_ : Nat) => "tree") 80 24 (Editor.mk (0 : Nat) [])
        (Event.Key (Key.Char 'q'))).2.2 = [] ∧
    update_display (fun (_ : Nat) => "tree") 80 24 (Editor.mk (0 : Nat) []) ≠ [] := by
  decide

/-- C9 amended: after every event on which the loop keeps running, it
re-renders by clearing the screen, printing the rendered tree, printing the
fixed hint, and printing the current (possibly partial) command buffer
right-aligned; after an event resolving to Quit the loop breaks first and
issues no terminal operation. -/
theorem C9_amended_render_after_nonquit {E : Type} (toText : E → String)
    (width height : Nat) (ed : Editor E) (event : Event) :
    ((mainloopStep ed event).2 = LoopStatus.Running →
      (mainloopIter toText width height ed event).2.2 =
        [ TermOp.clear,
          TermOp.print 0 0 (toText (mainloopStep ed event).1.tree),
          TermOp.print ((height : Int) - 1) 0 "Press \x27q\x27 to exit.",
          TermOp.print ((height : Int) - 1)
            ((width : Int) - 5 - (((mainloopStep ed event).1.command.length : Nat) : Int))
            (String.mk (mainloopStep ed event).1.command),
          TermOp.present ]) ∧
    ((mainloopStep ed event).2 = LoopStatus.Terminated →
      (mainloopIter toText width height ed event).2.2 = []) := by
  rcases hstep : mainloopStep ed event with ⟨ed2, st⟩
  constructor
  · intro h
    cases st with
    | Terminated => exact absurd h (by simp)
    | Running =>
      simp only [mainloopIter, hstep, update_display]
  · intro h
    cases st with
    | Running => exact absurd h (by simp)
    | Terminated =>
      simp only [mainloopIter, hstep]

/-- Witness for the amended C9: a non-key event on an empty buffer issues the
full render sequence, and the quitting key issues none. -/
theorem C9_amended_render_after_nonquit_witness :
    (mainloopIter (fun (_ : Nat) => "t") 80 24 (Editor.mk (0 : Nat) [])
        Event.Other).2.2 =
      [ TermOp.clear,
        TermOp.print 0 0 "t",
        TermOp.print 23 0 "Press \x27q\x27 to exit.",
        TermOp.print 23 75 "",
        TermOp.present ] ∧
    (mainloopIter (fun (_ : Nat) => "t") 80 24 (Editor.mk (0 : Nat) [])
        (Event.Key (Key.Char 'q'))).2.2 = [] := by
  constructor
  · have h := (C9_amended_render_after_nonquit (fun (_ : Nat) => "t") 80 24
      (Editor.mk (0 : Nat) []) Event.Other).1 rfl
    simpa using h
  · exact (C9_amended_render_after_nonquit (fun (_ : Nat) => "t") 80 24
      (Editor.mk (0 : Nat) []) (Event.Key (Key.Char 'q'))).2 rfl

/-- C10: the interpreter returns none exactly for the empty buffer and the
single-character buffer r, and its result depends only on the first two
characters of the buffer. -/
theorem C10_none_iff_and_first_two (s : List Char) :
    (interpret_command s = none ↔ s = [] ∨ s = ['r']) ∧
    (∀ t : List Char, s.take 2 = t.take 2 →
      interpret_command s = interpret_command t) := by
  constructor
  · match s with
    | [] => simp [interpret_command]
    | [c] =>
      by_cases hq : c = 'q'
      · subst hq; decide
      · by_cases hr : c = 'r'
        · subst hr; decide
        · have hu : interpret_command [c] = some Action.Undefined := by
            simp only [interpret_command]
            rw [if_neg hq, if_neg hr]
          simp [hu, hq, hr]
    | c :: d :: r =>
      constructor
      · intro h
        exact absurd h (interpret_command_cons_cons c d r)
      · rintro (h | h)
        · exact absurd h (List.cons_ne_nil c (d :: r))
        · injection h with h1 h2
          exact absurd h2 (List.cons_ne_nil d r)
  · intro t ht
    rw [interpret_command_take_two s, interpret_command_take_two t, ht]

/-- Witness for C10: two buffers agreeing on their first two characters get
the same interpretation. -/
theorem C10_none_iff_and_first_two_witness :
    interpret_command ['r', 'a'] = interpret_command ['r', 'a', 'b'] :=
  (C10_none_iff_and_first_two ['r', 'a']).2 ['r', 'a', 'b'] (by decide)

end Sapling
